import Mathlib

/-!
Verification development for the UMass Ride Share board (`app.py`).

The Python source is shallowly embedded: each stored trip becomes a `TripDoc`
record, the Mongo collection (resp. the in-memory fallback list) becomes a
`List TripDoc`, string operations (`lower`, `strip`, `split`, substring `in`)
are modelled over `List Char`, clock times as minutes since midnight (`Nat`),
floats (prices, scores) as `ℚ` (all values involved are dyadic and exact in
the source's floats), and Python's stable `list.sort` as insertion sort, which
is likewise stable.  A raised storage exception is modelled by an explicit
boolean flag on the operations whose `try/except` behaviour matters.
-/

/-- One posted trip, mirroring the document built in `post_form` (`app.py`).
`id` is the storage-assigned `_id` (the in-memory branch assigns
`str(len(docs)+1)`; Mongo's opaque ObjectId is modelled the same way),
`email` is `None` or a non-empty address, `age` is `None` when the form
value was `0` (falsy). -/
structure TripDoc where
  id : String
  name : String
  contact : String
  email : Option String
  is_student : Bool
  age : Option Nat
  gender : String
  bags : Nat
  origin : String
  destination : String
  route_key : String
  date : String
  time_from : String
  time_to : String
  time_from_minutes : Nat
  time_to_minutes : Nat
  price_min : ℚ
  price_max : ℚ
  exact_location : String
  prefs : String
  notify_matches : Bool
  created_at : String
deriving DecidableEq, Repr

/-- `str.lower()` on the character list (ASCII case folding). -/
def lowChars (l : List Char) : List Char := l.map Char.toLower

/-- Whitespace test used by Python's `str.strip()` / `str.split()`. -/
def isWsChar (c : Char) : Bool := c.isWhitespace

/-- `str.strip()`: drop leading and trailing whitespace. -/
def stripChars (l : List Char) : List Char :=
  ((l.dropWhile isWsChar).reverse.dropWhile isWsChar).reverse

/-- `s.lower().strip()` as a character list. -/
def lowstrip (s : String) : List Char := stripChars (lowChars s.toList)

/-- `s.strip()` as a string. -/
def strTrim (s : String) : String := String.mk (stripChars s.toList)

/-- Does the first list occur at the head of the second? -/
def strStarts : List Char → List Char → Bool
  | [], _ => true
  | _ :: _, [] => false
  | a :: as, b :: bs => a == b && strStarts as bs

/-- Python's substring test `p in t` (true for the empty pattern). -/
def strHas (p : List Char) : List Char → Bool
  | [] => p.isEmpty
  | c :: ts => strStarts p (c :: ts) || strHas p ts

/-- `a in b` for strings-as-lists. -/
def substrOf (a b : List Char) : Bool := strHas a b

/-- Python's lexicographic `<` on strings (by code point). -/
def strLtB : List Char → List Char → Bool
  | [], [] => false
  | [], _ :: _ => true
  | _ :: _, [] => false
  | a :: as, b :: bs =>
    if a.toNat < b.toNat then true
    else if b.toNat < a.toNat then false
    else strLtB as bs

/-- Python's `a < b` on ISO date strings (lexicographic = chronological). -/
def dateLt (a b : String) : Bool := strLtB a.toList b.toList

/-- Python's `a >= b` on strings: the negation of `a < b` in the total
lexicographic order. -/
def dateGe (a b : String) : Bool := !dateLt a b

/-- Accumulator version of Python's whitespace `str.split()`. -/
def pyWordsAux : List Char → List Char → List (List Char)
  | [], acc => if acc.isEmpty then [] else [acc.reverse]
  | c :: cs, acc =>
    if isWsChar c then
      if acc.isEmpty then pyWordsAux cs [] else acc.reverse :: pyWordsAux cs []
    else pyWordsAux cs (c :: acc)

/-- Python's `str.split()` (split on whitespace runs, no empty tokens). -/
def pyWords (l : List Char) : List (List Char) := pyWordsAux l []

/-- Per-field route-similarity contribution from `find_matches`:
`1.0` on substring containment either way, else `0.5` on a whitespace token
of the query occurring in the record string, else `0.5` on a token of the
record string occurring in the query, else `0`.  Both arguments are already
lowercased and stripped. -/
def fieldScore (q r : List Char) : ℚ :=
  if substrOf q r || substrOf r q then 1
  else if (pyWords q).any (fun w => !w.isEmpty && substrOf w r) then 1/2
  else if (pyWords r).any (fun w => !w.isEmpty && substrOf w q) then 1/2
  else 0

/-- The `_similarity_score` computed in `find_matches`: the sum of the
per-field contributions over the query fields that were given, each guarded
by the source's post-strip truthiness test (`if origin_lower:` /
`if dest_lower:`): a given field whose lowercased, stripped value is the
empty string contributes nothing. -/
def simScore (oL dL : Option (List Char)) (d : TripDoc) : ℚ :=
  (match oL with
    | some q => if q.isEmpty then 0 else fieldScore q (lowstrip d.origin)
    | none => 0)
  + (match dL with
    | some q => if q.isEmpty then 0 else fieldScore q (lowstrip d.destination)
    | none => 0)

/-- Python truthiness on an optional string: `None` and `""` are falsy. -/
def optTruthy (s : Option String) : Option String :=
  match s with
  | some s => if s == "" then none else some s
  | none => none

/-- The lowercased, stripped query field (`origin.lower().strip() if origin
else None`). -/
def queryLow (s : Option String) : Option (List Char) := (optTruthy s).map lowstrip

/-- Comparison used by `docs.sort(key=similarity, reverse=True)`:
descending similarity score. -/
def simGE (oL dL : Option (List Char)) (a b : TripDoc) : Prop :=
  simScore oL dL b ≤ simScore oL dL a

instance (oL dL : Option (List Char)) : DecidableRel (simGE oL dL) :=
  fun a b => inferInstanceAs (Decidable (simScore oL dL b ≤ simScore oL dL a))

instance (oL dL : Option (List Char)) : IsTotal TripDoc (simGE oL dL) :=
  ⟨fun a b => le_total (simScore oL dL b) (simScore oL dL a)⟩

instance (oL dL : Option (List Char)) : IsTrans TripDoc (simGE oL dL) :=
  ⟨fun _ _ _ hab hbc => le_trans hbc hab⟩

/-- The `_time_score` of a candidate: distance between the midpoint of the
query window `[qf, qt]` and the midpoint of the candidate's stored window,
all in minutes since midnight. -/
def timeScore (qf qt : Nat) (d : TripDoc) : ℚ :=
  |((qf : ℚ) + (qt : ℚ)) / 2 - ((d.time_from_minutes : ℚ) + (d.time_to_minutes : ℚ)) / 2|

/-- Comparison used by `docs.sort(key=lambda x: (time_score, -similarity))`:
ascending time score, descending similarity as tie-break. -/
def timeLE (oL dL : Option (List Char)) (qf qt : Nat) (a b : TripDoc) : Prop :=
  timeScore qf qt a < timeScore qf qt b ∨
    (timeScore qf qt a = timeScore qf qt b ∧ simScore oL dL b ≤ simScore oL dL a)

instance (oL dL : Option (List Char)) (qf qt : Nat) : DecidableRel (timeLE oL dL qf qt) :=
  fun a b => inferInstanceAs (Decidable (_ < _ ∨ (_ = _ ∧ _ ≤ _)))

instance (oL dL : Option (List Char)) (qf qt : Nat) : IsTotal TripDoc (timeLE oL dL qf qt) := by
  constructor
  intro a b
  rcases lt_trichotomy (timeScore qf qt a) (timeScore qf qt b) with h | h | h
  · exact Or.inl (Or.inl h)
  · rcases le_total (simScore oL dL b) (simScore oL dL a) with hs | hs
    · exact Or.inl (Or.inr ⟨h, hs⟩)
    · exact Or.inr (Or.inr ⟨h.symm, hs⟩)
  · exact Or.inr (Or.inl h)

instance (oL dL : Option (List Char)) (qf qt : Nat) : IsTrans TripDoc (timeLE oL dL qf qt) := by
  constructor
  intro a b c hab hbc
  rcases hab with hab | ⟨hab, hab'⟩ <;> rcases hbc with hbc | ⟨hbc, hbc'⟩
  · exact Or.inl (lt_trans hab hbc)
  · exact Or.inl (hbc ▸ hab)
  · exact Or.inl (hab ▸ hbc)
  · exact Or.inr ⟨hab.trans hbc, le_trans hbc' hab'⟩

/-- The inlined time-window test of `find_matches`:
`time_from_minutes <= tA_max and time_to_minutes >= tA_min`. -/
def timeOverlapKeep (qf qt : Nat) (d : TripDoc) : Bool :=
  decide (d.time_from_minutes ≤ qt) && decide (qf ≤ d.time_to_minutes)

/-- `ranges_overlap` from `app.py`: closed intervals `[a_min,a_max]` and
`[b_min,b_max]` intersect. -/
def ranges_overlap (a_min a_max b_min b_max : Nat) : Bool :=
  decide (a_min ≤ b_max) && decide (b_min ≤ a_max)

/-- `price_overlap` from `app.py`: the same closed-interval test on `ℚ`. -/
def price_overlap (a_min a_max b_min b_max : ℚ) : Bool :=
  decide (a_min ≤ b_max) && decide (b_min ≤ a_max)

/-- The exact-date prefilter of `find_matches` (`query["date"] = trip_date`
when `trip_date` is truthy). -/
def dateStage (trip_date : Option String) (store : List TripDoc) : List TripDoc :=
  match optTruthy trip_date with
  | some dt => store.filter (fun d => d.date == dt)
  | none => store

/-- The route-similarity stage of `find_matches`: when origin or destination
is given, keep candidates with positive score and sort them by descending
score (Python's sort is stable; so is insertion sort). -/
def simStage (oL dL : Option (List Char)) (docs : List TripDoc) : List TripDoc :=
  if oL.isSome || dL.isSome then
    List.insertionSort (simGE oL dL) (docs.filter (fun d => decide (0 < simScore oL dL d)))
  else docs

/-- The time stage of `find_matches`: when both bounds are given, keep the
candidates whose window overlaps the query window, then sort by
`(time score asc, similarity desc)`. -/
def timeStage (oL dL : Option (List Char)) (t_from t_to : Option Nat)
    (docs : List TripDoc) : List TripDoc :=
  match t_from, t_to with
  | some qf, some qt =>
      List.insertionSort (timeLE oL dL qf qt) (docs.filter (timeOverlapKeep qf qt))
  | _, _ => docs

/-- `find_matches` from `app.py`.  `colStore` is the Mongo collection
(`none` when no durable store is configured), `findRaises` models
`col.find` raising (the `except` branch returns `[]`), times are minutes
since midnight (`time` objects are always truthy, so only `None` disables
the time stage). -/
def find_matches (colStore : Option (List TripDoc)) (findRaises : Bool)
    (origin destination trip_date : Option String)
    (t_from t_to : Option Nat) (max_results : Nat) : List TripDoc :=
  match colStore with
  | none => []
  | some store =>
    if findRaises then []
    else
      (timeStage (queryLow origin) (queryLow destination) t_from t_to
        (simStage (queryLow origin) (queryLow destination)
          (dateStage trip_date store))).take max_results

/-! ### Integer twins of the `ℚ`-valued scores

The source computes scores in floats; every value that occurs is a multiple
of `1/2`, so each score equals a natural number of half-points divided by
two.  The `…2` definitions below compute those half-point counts; the
agreement lemmas let concrete runs of the pipeline be evaluated by `decide`
(kernel reduction of `ℚ` arithmetic is not available). -/

/-- Twice `fieldScore`, as a natural number of half-points. -/
def fieldScore2 (q r : List Char) : Nat :=
  if substrOf q r || substrOf r q then 2
  else if (pyWords q).any (fun w => !w.isEmpty && substrOf w r) then 1
  else if (pyWords r).any (fun w => !w.isEmpty && substrOf w q) then 1
  else 0

/-- Twice `simScore`, with the same post-strip truthiness guard. -/
def simScore2 (oL dL : Option (List Char)) (d : TripDoc) : Nat :=
  (match oL with
    | some q => if q.isEmpty then 0 else fieldScore2 q (lowstrip d.origin)
    | none => 0)
  + (match dL with
    | some q => if q.isEmpty then 0 else fieldScore2 q (lowstrip d.destination)
    | none => 0)

/-- Twice `timeScore`: the distance between the doubled midpoints. -/
def dist2 (qf qt : Nat) (d : TripDoc) : Nat :=
  max (qf + qt) (d.time_from_minutes + d.time_to_minutes)
    - min (qf + qt) (d.time_from_minutes + d.time_to_minutes)

/-- Half-point version of `simGE`. -/
def simGE2 (oL dL : Option (List Char)) (a b : TripDoc) : Prop :=
  simScore2 oL dL b ≤ simScore2 oL dL a

instance (oL dL : Option (List Char)) : DecidableRel (simGE2 oL dL) :=
  fun a b => inferInstanceAs (Decidable (simScore2 oL dL b ≤ simScore2 oL dL a))

/-- Half-point version of `timeLE`. -/
def timeLE2 (oL dL : Option (List Char)) (qf qt : Nat) (a b : TripDoc) : Prop :=
  dist2 qf qt a < dist2 qf qt b ∨
    (dist2 qf qt a = dist2 qf qt b ∧ simScore2 oL dL b ≤ simScore2 oL dL a)

instance (oL dL : Option (List Char)) (qf qt : Nat) : DecidableRel (timeLE2 oL dL qf qt) :=
  fun a b => inferInstanceAs (Decidable (_ < _ ∨ (_ = _ ∧ _ ≤ _)))

/-- `simStage` with the half-point scores (kernel-evaluable). -/
def simStageN (oL dL : Option (List Char)) (docs : List TripDoc) : List TripDoc :=
  if oL.isSome || dL.isSome then
    List.insertionSort (simGE2 oL dL) (docs.filter (fun d => decide (0 < simScore2 oL dL d)))
  else docs

/-- `timeStage` with the half-point scores (kernel-evaluable). -/
def timeStageN (oL dL : Option (List Char)) (t_from t_to : Option Nat)
    (docs : List TripDoc) : List TripDoc :=
  match t_from, t_to with
  | some qf, some qt =>
      List.insertionSort (timeLE2 oL dL qf qt) (docs.filter (timeOverlapKeep qf qt))
  | _, _ => docs

/-- Kernel-evaluable form of `find_matches`. -/
def find_matchesN (colStore : Option (List TripDoc)) (findRaises : Bool)
    (origin destination trip_date : Option String)
    (t_from t_to : Option Nat) (max_results : Nat) : List TripDoc :=
  match colStore with
  | none => []
  | some store =>
    if findRaises then []
    else
      (timeStageN (queryLow origin) (queryLow destination) t_from t_to
        (simStageN (queryLow origin) (queryLow destination)
          (dateStage trip_date store))).take max_results

/-! ### Storage state and the stateful operations

`AppState` carries the Mongo collection when `MONGODB_URI` is configured
(`col`) and the `st.session_state["_mem_docs"]` fallback list otherwise.
Each operation mirrors the two branches of its Python counterpart; a raised
storage exception, where the source catches one, is an explicit flag. -/

structure AppState where
  col : Option (List TripDoc)
  memDocs : List TripDoc
deriving DecidableEq, Repr

/-- The documents the operations actually read/write: the collection when
configured, the in-memory fallback list otherwise. -/
def docsOf (s : AppState) : List TripDoc :=
  match s.col with
  | some store => store
  | none => s.memDocs

/-- `save_doc`: append the document, assigning the storage id (the in-memory
branch uses `str(len(docs)+1)`; Mongo's generated ObjectId is modelled the
same way). -/
def save_doc (s : AppState) (doc : TripDoc) : AppState × String :=
  match s.col with
  | none =>
    let newId := toString (s.memDocs.length + 1)
    ({ s with memDocs := s.memDocs ++ [{ doc with id := newId }] }, newId)
  | some store =>
    let newId := toString (store.length + 1)
    ({ s with col := some (store ++ [{ doc with id := newId }]) }, newId)

/-- `doc_exists_for_contact_date_and_route`: is there a stored document with
this exact `(contact, date, route_key)` triple?  Both branches test the same
predicate (`any` over the fallback list, `count_documents(..., limit=1) > 0`
on Mongo); on a raised storage error the `except` branch returns `False`
(fail open). -/
def doc_exists_for_contact_date_and_route (checkRaises : Bool) (s : AppState)
    (contact trip_date_iso route_key : String) : Bool :=
  if checkRaises then false
  else (docsOf s).any (fun d =>
    d.contact == contact && d.date == trip_date_iso && d.route_key == route_key)

/-- `str(n).rjust`-free two-digit rendering used by `strftime("%H:%M")`. -/
def two_pad (n : Nat) : String := if n < 10 then "0" ++ toString n else toString n

/-- `t.strftime("%H:%M")` from minutes since midnight. -/
def fmtHM (m : Nat) : String := two_pad (m / 60) ++ ":" ++ two_pad (m % 60)

/-- The post-form inputs consumed by the posting flow (`tf`/`tt` are the
selected clock times as minutes since midnight; `time_input` has minute
granularity, so comparing minutes is the source's `time` comparison). -/
structure PostForm where
  name : String
  contact : String
  email : String
  is_student : Bool
  age : Nat
  gender : String
  bags : Nat
  origin : String
  dest : String
  dateIso : String
  tf : Nat
  tt : Nat
  pmin : ℚ
  pmax : ℚ
  exact_location : String
  prefs : String
  notify_matches : Bool
  created_at : String
deriving DecidableEq, Repr

/-- `route_key = f"{origin.strip().replace(' ', '').lower()}→{dest.strip().replace(' ', '').lower()}"`:
strip, remove every space character, lowercase, join with `'→'`. -/
def route_key_of (origin dest : String) : String :=
  String.mk (lowChars ((stripChars origin.toList).filter (fun c => !(c == ' '))))
    ++ "→"
    ++ String.mk (lowChars ((stripChars dest.toList).filter (fun c => !(c == ' '))))

/-- The document dict built by the posting flow (before the storage id is
assigned). -/
def mkDoc (f : PostForm) (rkey : String) : TripDoc :=
  { id := ""
    name := strTrim f.name
    contact := strTrim f.contact
    email := if strTrim f.email == "" then none else some (strTrim f.email)
    is_student := f.is_student
    age := if f.age == 0 then none else some f.age
    gender := f.gender
    bags := f.bags
    origin := f.origin
    destination := f.dest
    route_key := rkey
    date := f.dateIso
    time_from := fmtHM f.tf
    time_to := fmtHM f.tt
    time_from_minutes := f.tf
    time_to_minutes := f.tt
    price_min := f.pmin
    price_max := f.pmax
    exact_location := strTrim f.exact_location
    prefs := strTrim f.prefs
    notify_matches := f.notify_matches
    created_at := f.created_at }

/-- The posting flow (`with tab_post`): required-field validation, time-range
validation, duplicate guard, then `save_doc`.  Returns the new state and
whether a document was written. -/
def post_form (checkRaises : Bool) (s : AppState) (f : PostForm) : AppState × Bool :=
  if f.name == "" || f.contact == "" || f.origin == "" || f.dest == "" then (s, false)
  else if f.tt ≤ f.tf then (s, false)
  else
    let rkey := route_key_of f.origin f.dest
    if doc_exists_for_contact_date_and_route checkRaises s (strTrim f.contact) f.dateIso rkey then
      (s, false)
    else ((save_doc s (mkDoc f rkey)).1, true)

/-- The document that a successful `post_form` run on state `s` appends. -/
def postedDoc (s : AppState) (f : PostForm) : TripDoc :=
  { mkDoc f (route_key_of f.origin f.dest) with id := toString ((docsOf s).length + 1) }

/-- `cleanup_expired_trips`: drop every record with `date < today` (ISO
strings compare lexicographically in both branches) and report how many
were dropped; the in-memory branch keeps `date >= today`, the Mongo branch
deletes `date < today` — the same partition. -/
def cleanup_expired_trips (today_iso : String) (s : AppState) : AppState × Nat :=
  match s.col with
  | none =>
    let kept := s.memDocs.filter (fun d => dateGe d.date today_iso)
    ({ s with memDocs := kept }, s.memDocs.length - kept.length)
  | some store =>
    let kept := store.filter (fun d => !dateLt d.date today_iso)
    ({ s with col := some kept }, store.length - kept.length)

/-- `delete_doc`: the in-memory branch drops every document whose id and
contact both match and reports whether the list shrank; the Mongo branch is
`delete_one({_id, contact})`, which removes the first match, reporting
`deleted_count == 1`. -/
def delete_doc (s : AppState) (doc_id contact : String) : AppState × Bool :=
  match s.col with
  | none =>
    let kept := s.memDocs.filter (fun d => !(d.id == doc_id && d.contact == contact))
    ({ s with memDocs := kept }, decide (kept.length < s.memDocs.length))
  | some store =>
    let kept := store.eraseP (fun d => d.id == doc_id && d.contact == contact)
    ({ s with col := some kept }, decide (kept.length < store.length))

/-- The fuzzy per-field test of `check_and_notify_matches`: substring either
way, or any whitespace token of one string occurring in the other.  Both
arguments are lowercased and stripped by the caller. -/
def notifyFieldMatch (search_s user_s : List Char) : Bool :=
  substrOf search_s user_s || substrOf user_s search_s ||
    (pyWords search_s).any (fun w => substrOf w user_s) ||
    (pyWords user_s).any (fun w => substrOf w search_s)

/-- `check_and_notify_matches`: the list of `(user, matches)` notification
emails sent for a post of `(origin, destination, trip_date)` by
`exclude_contact`.  Users come from the query
`{notify_matches: true, email: exists and nonempty, date: trip_date}`;
the engine is run with its default whole-day window and its results are
purged of the user's own postings. -/
def check_and_notify_matches (store : List TripDoc)
    (origin destination trip_date exclude_contact : String) :
    List (TripDoc × List TripDoc) :=
  let users := store.filter (fun u =>
    u.notify_matches && u.email.any (fun e => !(e == "")) && u.date == trip_date)
  users.filterMap (fun u =>
    if u.contact == exclude_contact then none
    else
      if notifyFieldMatch (lowstrip origin) (lowstrip u.origin)
          && notifyFieldMatch (lowstrip destination) (lowstrip u.destination) then
        let filtered := (find_matches (some store) false (some origin) (some destination)
            (some trip_date) (some 0) (some 1439) 50).filter (fun m => !(m.contact == u.contact))
        if filtered.isEmpty then none else some (u, filtered)
      else none)

/-- `s.lower()` as a string. -/
def pyLower (s : String) : String := String.mk (lowChars s.toList)

/-- The search flow (`with tab_search`): `find_matches` on the stripped route
strings, the optional date, and the selected time window, then the
preferences-text filter and the bag-count filter.  The form's price bounds
`pmin_s`/`pmax_s` are accepted but not passed on — the corresponding
`find_matches` arguments are commented out in the source. -/
def search_results (colStore : Option (List TripDoc)) (findRaises : Bool)
    (origin_s dest_s : String) (date_s : Option String) (t_from_s t_to_s : Nat)
    (pmin_s pmax_s : ℚ) (q : String) (bags_max : Nat) : List TripDoc :=
  let results := find_matches colStore findRaises (some (strTrim origin_s))
    (some (strTrim dest_s)) date_s (some t_from_s) (some t_to_s) 50
  let results := if q == "" then results
    else results.filter (fun r => substrOf (lowChars q.toList) (lowChars r.prefs.toList))
  results.filter (fun r => decide (r.bags ≤ bags_max))

/-! ### Sample documents used in the concrete parts of the claims -/

/-- A posted trip with the fields the matching engine inspects; the remaining
fields take fixed innocuous values. -/
def sampleDoc (id contact origin destination dateIso : String) (tfm ttm : Nat)
    (pmin pmax : ℚ) : TripDoc :=
  { id := id, name := "N", contact := contact, email := none, is_student := true, age := none,
    gender := "Prefer not to say", bags := 0, origin := origin, destination := destination,
    route_key := route_key_of origin destination, date := dateIso, time_from := fmtHM tfm,
    time_to := fmtHM ttm, time_from_minutes := tfm, time_to_minutes := ttm, price_min := pmin,
    price_max := pmax, exact_location := "", prefs := "", notify_matches := false,
    created_at := "t" }

/-- Trip A of the spec's end-to-end scenario: Amherst→Boston, 08:00–10:00. -/
def tripA : TripDoc := sampleDoc "1" "+15551234567" "Amherst" "Boston" "2025-01-10" 480 600 20 40

/-- Trip B of the spec's end-to-end scenario: Amherst→Boston, 09:00–11:00. -/
def tripB : TripDoc := sampleDoc "2" "+15557654321" "Amherst" "Boston" "2025-01-10" 540 660 30 50

/-- A candidate with time window \x5b570,630\x5d (09:30–10:30). -/
def trip570 : TripDoc := sampleDoc "3" "c3" "Amherst" "Boston" "2025-01-10" 570 630 20 40

/-- A candidate with time window \x5b610,660\x5d (10:10–11:00). -/
def trip610 : TripDoc := sampleDoc "4" "c4" "Amherst" "Boston" "2025-01-10" 610 660 20 40

/-- The per-field similarity contribution as the claim words it: `1.0` if
either lowercased, trimmed string is a substring of the other
(symmetrically), else `0.5` if any whitespace-split token of one string
appears in the other, else `0`. -/
def fieldScoreSpec (q r : List Char) : ℚ :=
  if substrOf q r || substrOf r q then 1
  else if (pyWords q).any (fun w => substrOf w r) || (pyWords r).any (fun w => substrOf w q)
    then 1/2
  else 0

/-- A stored trip whose route has no textual overlap with Amherst→Boston. -/
def tripOther : TripDoc := sampleDoc "5" "c5" "Springfield" "Hartford" "2025-01-10" 480 600 20 40

/-- A stored trip priced \x5b70,100\x5d, outside the query range \x5b10,60\x5d. -/
def tripPricey : TripDoc := sampleDoc "6" "c6" "Amherst" "Boston" "2026-01-10" 480 600 70 100

/-- A trip dated before the sweep's "today". -/
def tripYester : TripDoc := sampleDoc "7" "c7" "Amherst" "Boston" "2025-06-14" 480 600 20 40

/-- A trip dated exactly on the sweep's "today". -/
def tripToday : TripDoc := sampleDoc "8" "c8" "Amherst" "Boston" "2025-06-15" 480 600 20 40

/-- A trip dated after the sweep's "today". -/
def tripLater : TripDoc := sampleDoc "9" "c9" "Amherst" "Boston" "2025-07-01" 480 600 20 40

/-- The sample post form used to instantiate the duplicate-guard theorem. -/
def sampleForm : PostForm :=
  { name := "Alice", contact := "+15551234567", email := "", is_student := true, age := 0,
    gender := "Prefer not to say", bags := 0, origin := "Amherst", dest := "Boston",
    dateIso := "2025-01-10", tf := 480, tt := 600, pmin := 20, pmax := 40,
    exact_location := "", prefs := "", notify_matches := false, created_at := "t" }

/-- A post form whose origin contains a space. -/
def formNY : PostForm := { sampleForm with origin := "New York" }

/-- The poster's own trip record in the notification scenario. -/
def posterTrip : TripDoc := sampleDoc "1" "+15551112222" "Amherst" "Boston" "2025-01-10" 480 600 20 40

/-- An opted-in user (notification flag set, non-empty email) on the same
route and date. -/
def notifyUser : TripDoc := { sampleDoc "2" "+15553334444" "Amherst" "Boston" "2025-01-10" 540 660 30 50 with
  email := some "u@example.com"
  notify_matches := true }

theorem fieldScore_eq_half (q r : List Char) :
    fieldScore q r = (fieldScore2 q r : ℚ) / 2 := by
  unfold fieldScore fieldScore2
  split_ifs <;> norm_num

theorem simScore_eq_half (oL dL : Option (List Char)) (d : TripDoc) :
    simScore oL dL d = (simScore2 oL dL d : ℚ) / 2 := by
  unfold simScore simScore2
  cases oL <;> cases dL <;> simp [fieldScore_eq_half] <;> split_ifs <;>
    push_cast <;> ring

theorem natDist_cast (a b : Nat) :
    ((max a b - min a b : Nat) : ℚ) = |(a : ℚ) - (b : ℚ)| := by
  rcases le_total a b with h | h
  · rw [max_eq_right h, min_eq_left h, abs_sub_comm, Nat.cast_sub h,
      abs_of_nonneg (sub_nonneg.mpr (by exact_mod_cast h))]
  · rw [max_eq_left h, min_eq_right h, Nat.cast_sub h,
      abs_of_nonneg (sub_nonneg.mpr (by exact_mod_cast h))]

theorem timeScore_eq_half (qf qt : Nat) (d : TripDoc) :
    timeScore qf qt d = (dist2 qf qt d : ℚ) / 2 := by
  unfold timeScore dist2
  rw [natDist_cast, div_sub_div_same, abs_div]
  push_cast
  norm_num

theorem half_le_half_iff (m n : Nat) : ((m : ℚ) / 2 ≤ (n : ℚ) / 2) ↔ m ≤ n := by
  rw [div_le_div_iff_of_pos_right (by norm_num : (0:ℚ) < 2)]
  exact_mod_cast Iff.rfl

theorem half_lt_half_iff (m n : Nat) : ((m : ℚ) / 2 < (n : ℚ) / 2) ↔ m < n := by
  rw [div_lt_div_iff_of_pos_right (by norm_num : (0:ℚ) < 2)]
  exact_mod_cast Iff.rfl

theorem half_eq_half_iff (m n : Nat) : ((m : ℚ) / 2 = (n : ℚ) / 2) ↔ m = n := by
  constructor
  · intro h
    have h2 : (m : ℚ) = (n : ℚ) := by linarith
    exact_mod_cast h2
  · intro h; rw [h]

theorem simScore_pos_iff (oL dL : Option (List Char)) (d : TripDoc) :
    0 < simScore oL dL d ↔ 0 < simScore2 oL dL d := by
  rw [simScore_eq_half]
  constructor
  · intro h
    rcases Nat.eq_zero_or_pos (simScore2 oL dL d) with h0 | h0
    · rw [h0] at h; norm_num at h
    · exact h0
  · intro h
    have h2 : (0:ℚ) < (simScore2 oL dL d : ℚ) := by exact_mod_cast h
    linarith

theorem simGE_iff (oL dL : Option (List Char)) (a b : TripDoc) :
    simGE oL dL a b ↔ simScore2 oL dL b ≤ simScore2 oL dL a := by
  unfold simGE
  rw [simScore_eq_half, simScore_eq_half, half_le_half_iff]

theorem timeLE_iff (oL dL : Option (List Char)) (qf qt : Nat) (a b : TripDoc) :
    timeLE oL dL qf qt a b ↔
      (dist2 qf qt a < dist2 qf qt b ∨
        (dist2 qf qt a = dist2 qf qt b ∧ simScore2 oL dL b ≤ simScore2 oL dL a)) := by
  unfold timeLE
  rw [timeScore_eq_half, timeScore_eq_half, simScore_eq_half, simScore_eq_half,
    half_lt_half_iff, half_eq_half_iff, half_le_half_iff]

theorem orderedInsert_congr {α : Type} {r s : α → α → Prop}
    [DecidableRel r] [DecidableRel s] (hrs : ∀ a b, r a b ↔ s a b) (a : α) :
    ∀ l : List α, l.orderedInsert r a = l.orderedInsert s a
  | [] => rfl
  | b :: l => by
    simp only [List.orderedInsert]
    rw [if_congr (hrs a b) rfl (congrArg _ (orderedInsert_congr hrs a l))]

theorem insertionSort_congr {α : Type} {r s : α → α → Prop}
    [DecidableRel r] [DecidableRel s] (hrs : ∀ a b, r a b ↔ s a b) :
    ∀ l : List α, List.insertionSort r l = List.insertionSort s l
  | [] => rfl
  | b :: l => by
    simp only [List.insertionSort]
    rw [insertionSort_congr hrs l, orderedInsert_congr hrs]

theorem simStage_eq_simStageN (oL dL : Option (List Char)) (docs : List TripDoc) :
    simStage oL dL docs = simStageN oL dL docs := by
  unfold simStage simStageN
  rcases h : (oL.isSome || dL.isSome) with _ | _
  · simp [h]
  · simp only [h, if_true]
    have hf : ∀ x ∈ docs, (decide (0 < simScore oL dL x)) = (decide (0 < simScore2 oL dL x)) :=
      fun x _ => by rw [decide_eq_decide]; exact simScore_pos_iff oL dL x
    rw [List.filter_congr hf]
    exact insertionSort_congr (fun a b => simGE_iff oL dL a b) _

theorem timeStage_eq_timeStageN (oL dL : Option (List Char)) (t_from t_to : Option Nat)
    (docs : List TripDoc) :
    timeStage oL dL t_from t_to docs = timeStageN oL dL t_from t_to docs := by
  unfold timeStage timeStageN
  cases t_from with
  | none => rfl
  | some qf =>
    cases t_to with
    | none => rfl
    | some qt => exact insertionSort_congr (fun a b => timeLE_iff oL dL qf qt a b) _

theorem find_matches_eq_N (colStore : Option (List TripDoc)) (findRaises : Bool)
    (origin destination trip_date : Option String)
    (t_from t_to : Option Nat) (max_results : Nat) :
    find_matches colStore findRaises origin destination trip_date t_from t_to max_results
      = find_matchesN colStore findRaises origin destination trip_date t_from t_to max_results := by
  unfold find_matches find_matchesN
  cases colStore with
  | none => rfl
  | some store =>
    rcases findRaises with _ | _
    · simp only [Bool.false_eq_true, if_false, simStage_eq_simStageN, timeStage_eq_timeStageN]
    · rfl

/-- C1: with both time bounds given, the list `find_matches` returns is
ordered by ascending time-proximity score `|midpoint(query) − midpoint(candidate)|`
(true arithmetic means of the minute bounds), with descending similarity
score breaking ties; concretely, for query window 09:00–09:30 the candidate
08:00–10:00 (midpoint distance 15) is ranked before 09:00–11:00 (distance 45). -/
theorem C1_time_proximity_sort :
    (∀ (colStore : Option (List TripDoc)) (findRaises : Bool)
      (origin destination trip_date : Option String) (qf qt max_results : Nat),
      List.Sorted (timeLE (queryLow origin) (queryLow destination) qf qt)
        (find_matches colStore findRaises origin destination trip_date
          (some qf) (some qt) max_results)) ∧
    timeScore 540 570 tripA = 15 ∧ timeScore 540 570 tripB = 45 ∧
    find_matches (some [tripB, tripA]) false (some "Amherst") (some "Boston")
      (some "2025-01-10") (some 540) (some 570) 50 = [tripA, tripB] := by
  refine ⟨?_, ?_, ?_, ?_⟩
  · intro colStore findRaises origin destination trip_date qf qt max_results
    cases colStore with
    | none => exact List.sorted_nil
    | some store =>
      rcases findRaises with _ | _
      · simp only [find_matches, Bool.false_eq_true, if_false, timeStage]
        exact (List.sorted_insertionSort _ _).sublist (List.take_sublist _ _)
      · simp only [find_matches, if_true]
        exact List.sorted_nil
  · rw [timeScore_eq_half]
    norm_num [show dist2 540 570 tripA = 30 from by decide]
  · rw [timeScore_eq_half]
    norm_num [show dist2 540 570 tripB = 90 from by decide]
  · rw [find_matches_eq_N]; decide

/-- C2: with both time bounds given, a candidate survives the time-window
filter iff the closed minute intervals `[qf,qt]` and
`[time_from_minutes, time_to_minutes]` intersect (`qf ≤ cTo ∧ cFrom ≤ qt`,
the same test `ranges_overlap` encodes); query `[540,600]` keeps `[570,630]`
and discards `[610,660]`. -/
theorem C2_time_overlap_filter :
    (∀ (qf qt : Nat) (docs : List TripDoc) (d : TripDoc),
      d ∈ docs.filter (timeOverlapKeep qf qt) ↔
        d ∈ docs ∧ (qf ≤ d.time_to_minutes ∧ d.time_from_minutes ≤ qt)) ∧
    (∀ (qf qt : Nat) (d : TripDoc),
      timeOverlapKeep qf qt d = ranges_overlap qf qt d.time_from_minutes d.time_to_minutes) ∧
    timeOverlapKeep 540 600 trip570 = true ∧
    timeOverlapKeep 540 600 trip610 = false ∧
    find_matches (some [trip570, trip610]) false none none none (some 540) (some 600) 50
      = [trip570] := by
  refine ⟨?_, ?_, by decide, by decide, by rw [find_matches_eq_N]; decide⟩
  · intro qf qt docs d
    simp only [List.mem_filter, timeOverlapKeep, Bool.and_eq_true, decide_eq_true_eq]
    tauto
  · intro qf qt d
    simp only [timeOverlapKeep, ranges_overlap, Bool.and_comm]

theorem pyWordsAux_ne_nil (l : List Char) :
    ∀ acc w, w ∈ pyWordsAux l acc → w ≠ [] := by
  induction l with
  | nil =>
    intro acc w hw
    simp only [pyWordsAux] at hw
    rcases h : acc.isEmpty with _ | _
    · rw [h] at hw
      simp only [Bool.false_eq_true, if_false, List.mem_singleton] at hw
      subst hw
      intro hrev
      rw [List.reverse_eq_nil_iff] at hrev
      rw [hrev] at h
      simp at h
    · rw [h] at hw; simp at hw
  | cons c cs ih =>
    intro acc w hw
    simp only [pyWordsAux] at hw
    rcases hws : isWsChar c with _ | _ <;> rw [hws] at hw
    · simp only [Bool.false_eq_true, if_false] at hw
      exact ih (c :: acc) w hw
    · simp only [if_true] at hw
      rcases h : acc.isEmpty with _ | _ <;> rw [h] at hw
      · simp only [Bool.false_eq_true, if_false, List.mem_cons] at hw
        rcases hw with hw | hw
        · subst hw
          intro hrev
          rw [List.reverse_eq_nil_iff] at hrev
          rw [hrev] at h
          simp at h
        · exact ih [] w hw
      · exact ih [] w hw

theorem pyWords_ne_nil (l : List Char) : ∀ w ∈ pyWords l, w ≠ [] :=
  fun w hw => pyWordsAux_ne_nil l [] w hw

theorem tokAny_drop_guard (q r : List Char) :
    (pyWords q).any (fun w => !w.isEmpty && substrOf w r)
      = (pyWords q).any (fun w => substrOf w r) := by
  rw [Bool.eq_iff_iff]
  simp only [List.any_eq_true, Bool.and_eq_true]
  constructor
  · rintro ⟨w, hw, _, hs⟩
    exact ⟨w, hw, hs⟩
  · rintro ⟨w, hw, hs⟩
    refine ⟨w, hw, ?_, hs⟩
    have := pyWords_ne_nil q w hw
    simpa [List.isEmpty_iff] using this

theorem fieldScore_eq_spec (q r : List Char) : fieldScore q r = fieldScoreSpec q r := by
  unfold fieldScore fieldScoreSpec
  rw [tokAny_drop_guard q r, tokAny_drop_guard r q]
  rcases h1 : substrOf q r || substrOf r q with _ | _ <;>
    rcases h2 : (pyWords q).any (fun w => substrOf w r) with _ | _ <;>
      rcases h3 : (pyWords r).any (fun w => substrOf w q) with _ | _ <;> simp

/-- C3 counterexample: for a call with the whitespace-only (still truthy,
hence given) origin `" "` over a store holding one date-matching record,
the claim's formula assigns the origin field `1.0` — the lowercased,
trimmed query string is empty and the empty string is a substring of every
record string — so the claimed total score is positive and the candidate
would be returned; the program instead guards each field with post-strip
truthiness (`if origin_lower:`), scores the candidate `0`, discards it, and
returns the empty list. -/
theorem C3_counterexample :
    fieldScoreSpec (lowstrip " ") (lowstrip "Springfield") = 1 ∧
    simScore (queryLow (some " ")) (queryLow none) tripOther = 0 ∧
    find_matches (some [tripOther]) false (some " ") none (some "2025-01-10")
      (some 0) (some 1439) 50 = [] := by
  refine ⟨?_, ?_, by rw [find_matches_eq_N]; decide⟩
  · unfold fieldScoreSpec
    rw [if_pos (by decide : (substrOf (lowstrip " ") (lowstrip "Springfield")
      || substrOf (lowstrip "Springfield") (lowstrip " ")) = true)]
  · rw [simScore_eq_half]
    norm_num [show simScore2 (queryLow (some " ")) (queryLow none) tripOther = 0 from by decide]

/-- C3 (amended): with origin or destination given, a candidate's similarity
score is the sum over the given fields whose lowercased, trimmed value is
non-empty of the symmetric substring/token contribution (`1.0` substring
either way, else `0.5` on token overlap in either direction, else `0`) — a
given field that trims to the empty string contributes `0` — and candidates
with total score `≤ 0` are discarded; "Boston" vs "Boston Logan Airport"
contributes `1.0` in either role, and a record with no overlap at all is
dropped from the results. -/
theorem C3_similarity_scoring :
    (∀ q r : List Char, fieldScore q r = fieldScoreSpec q r) ∧
    (∀ (oL dL : Option (List Char)) (d : TripDoc),
      simScore oL dL d
        = (match oL with
            | some q => if q.isEmpty then 0 else fieldScoreSpec q (lowstrip d.origin)
            | none => 0)
          + (match dL with
            | some q => if q.isEmpty then 0 else fieldScoreSpec q (lowstrip d.destination)
            | none => 0)) ∧
    (∀ (oL dL : Option (List Char)) (docs : List TripDoc) (d : TripDoc),
      d ∈ docs.filter (fun x => decide (0 < simScore oL dL x)) ↔
        d ∈ docs ∧ 0 < simScore oL dL d) ∧
    fieldScore (lowstrip "Boston") (lowstrip "Boston Logan Airport") = 1 ∧
    fieldScore (lowstrip "Boston Logan Airport") (lowstrip "Boston") = 1 ∧
    find_matches (some [tripOther]) false (some "Amherst") (some "Boston")
      (some "2025-01-10") (some 0) (some 1439) 50 = [] := by
  refine ⟨fieldScore_eq_spec, ?_, ?_, ?_, ?_, by rw [find_matches_eq_N]; decide⟩
  · intro oL dL d
    unfold simScore
    cases oL <;> cases dL <;> simp [fieldScore_eq_spec]
  · intro oL dL docs d
    simp [List.mem_filter]
  · rw [fieldScore_eq_half]
    norm_num [show fieldScore2 (lowstrip "Boston") (lowstrip "Boston Logan Airport") = 2 from by decide]
  · rw [fieldScore_eq_half]
    norm_num [show fieldScore2 (lowstrip "Boston Logan Airport") (lowstrip "Boston") = 2 from by decide]

/-- C4 counterexample: a search whose caller supplies price bounds 10–60
still returns a candidate priced 70–100, although the two price intervals
do not overlap — the price-window filter is never applied to a matching
query (`find_matches` takes no price arguments; the search tab's
`p_min`/`p_max` arguments are commented out). -/
theorem C4_counterexample :
    price_overlap 10 60 70 100 = false ∧
    search_results (some [tripPricey]) false "Amherst" "Boston" (some "2026-01-10")
      0 1439 10 60 "" 10 = [tripPricey] := by
  constructor
  · norm_num [price_overlap]
  · simp only [search_results, find_matches_eq_N]
    decide

/-- C4 (amended): `price_overlap` implements the same closed-interval test
as time (`a_min ≤ b_max ∧ b_min ≤ a_max`) and gives the claimed results on
the examples (`[10,60]` overlaps `[50,80]` but not `[70,100]`), but no
matching query applies it: `find_matches` accepts no price bounds and the
search flow's results are independent of the price bounds the caller
supplies. -/
theorem C4_price_overlap_unused :
    (∀ a_min a_max b_min b_max : ℚ,
      price_overlap a_min a_max b_min b_max = true ↔ (a_min ≤ b_max ∧ b_min ≤ a_max)) ∧
    price_overlap 10 60 50 80 = true ∧
    price_overlap 10 60 70 100 = false ∧
    (∀ (colStore : Option (List TripDoc)) (findRaises : Bool) (origin_s dest_s : String)
      (date_s : Option String) (tf tt : Nat) (p1 p2 p1' p2' : ℚ) (q : String) (bm : Nat),
      search_results colStore findRaises origin_s dest_s date_s tf tt p1 p2 q bm
        = search_results colStore findRaises origin_s dest_s date_s tf tt p1' p2' q bm) := by
  refine ⟨?_, by norm_num [price_overlap], by norm_num [price_overlap], ?_⟩
  · intro a b c d
    simp [price_overlap]
  · intro colStore findRaises origin_s dest_s date_s tf tt p1 p2 p1' p2' q bm
    rfl

/-- C6: one run of the expiry sweeper retains exactly the records whose date
is not strictly before today (so yesterday's record goes, today's and later
ones stay), reports the number of deleted records, and a sweep that deletes
nothing simply returns the unchanged store with count `0`. -/
theorem C6_expiry_sweeper :
    (∀ (today : String) (s : AppState) (d : TripDoc),
      d ∈ docsOf (cleanup_expired_trips today s).1 ↔
        (d ∈ docsOf s ∧ dateLt d.date today = false)) ∧
    (∀ (today : String) (s : AppState),
      (cleanup_expired_trips today s).2
        = ((docsOf s).filter (fun d => dateLt d.date today)).length) ∧
    cleanup_expired_trips "2025-06-15" (AppState.mk (some [tripYester, tripToday, tripLater]) [])
      = (AppState.mk (some [tripToday, tripLater]) [], 1) ∧
    cleanup_expired_trips "2025-06-15" (AppState.mk none [tripToday])
      = (AppState.mk none [tripToday], 0) := by
  refine ⟨?_, ?_, by decide, by decide⟩
  · intro today s d
    cases hc : s.col with
    | none =>
      simp [cleanup_expired_trips, hc, docsOf, List.mem_filter, dateGe]
    | some store =>
      simp [cleanup_expired_trips, hc, docsOf, List.mem_filter]
  · intro today s
    cases hc : s.col with
    | none =>
      simp only [cleanup_expired_trips, hc, docsOf]
      have h : s.memDocs.length = (s.memDocs.filter (fun d => dateLt d.date today)).length
          + (s.memDocs.filter (fun d => !dateLt d.date today)).length := by
        simpa using List.length_eq_length_filter_add (l := s.memDocs)
          (fun d => dateLt d.date today)
      have h2 : s.memDocs.filter (fun d => dateGe d.date today)
          = s.memDocs.filter (fun d => !dateLt d.date today) := by
        refine List.filter_congr (fun d _ => ?_)
        simp [dateGe]
      rw [h2]
      omega
    | some store =>
      simp only [cleanup_expired_trips, hc, docsOf]
      have h : store.length = (store.filter (fun d => dateLt d.date today)).length
          + (store.filter (fun d => !dateLt d.date today)).length := by
        simpa using List.length_eq_length_filter_add (l := store)
          (fun d => dateLt d.date today)
      omega

theorem filter_not_and_eraseP_of_unique {α : Type} [DecidableEq α]
    {l : List α} {a : α} {p : α → Bool}
    (hl : l.Nodup) (ha : a ∈ l) (hpa : p a = true)
    (huniq : ∀ b ∈ l, p b = true → b = a) :
    l.filter (fun b => !p b) = l.erase a ∧ l.eraseP p = l.erase a := by
  induction l with
  | nil => cases ha
  | cons x t ih =>
    rw [List.nodup_cons] at hl
    by_cases hx : x = a
    · subst hx
      have ht : ∀ b ∈ t, p b = false := by
        intro b hb
        rcases hq : p b with _ | _
        · rfl
        · exact absurd (huniq b (List.mem_cons_of_mem _ hb) hq ▸ hb) hl.1
      constructor
      · rw [List.erase_cons_head]
        rw [List.filter_cons, hpa]
        simp only [Bool.not_true, Bool.false_eq_true, if_false]
        exact List.filter_eq_self.mpr (fun b hb => by rw [ht b hb]; rfl)
      · rw [List.erase_cons_head]
        exact List.eraseP_cons_of_pos hpa
    · have ha' : a ∈ t := by
        rcases List.mem_cons.mp ha with h | h
        · exact absurd h.symm hx
        · exact h
      have hpx : p x = false := by
        rcases hq : p x with _ | _
        · rfl
        · exact absurd (huniq x (List.mem_cons_self x t) hq) hx
      have hxa : ¬(x == a) := by simpa using hx
      obtain ⟨ih1, ih2⟩ := ih hl.2 ha' (fun b hb hq => huniq b (List.mem_cons_of_mem _ hb) hq)
      constructor
      · rw [List.erase_cons_tail hxa, List.filter_cons, hpx]
        simp only [Bool.not_false, if_true, ih1]
      · rw [List.erase_cons_tail hxa, List.eraseP_cons_of_neg (by rw [hpx]; exact Bool.false_ne_true), ih2]

/-- C7: for a delete request `(doc_id, contact)` against a store whose ids
are distinct, if the record with that id has a different stored contact the
delete reports failure and the store is unchanged; if the contact matches,
exactly that record is removed (both the in-memory all-matches filter and
Mongo's `delete_one` remove precisely it) and the delete reports success. -/
theorem C7_delete_authorization (s : AppState) (doc_id contact : String) (d0 : TripDoc)
    (hnd : ((docsOf s).map (fun d => d.id)).Nodup)
    (hd0 : d0 ∈ docsOf s) (hid : d0.id = doc_id) :
    (d0.contact ≠ contact → delete_doc s doc_id contact = (s, false)) ∧
    (d0.contact = contact →
      docsOf (delete_doc s doc_id contact).1 = (docsOf s).erase d0 ∧
      (delete_doc s doc_id contact).2 = true) := by
  obtain ⟨scol, smem⟩ := s
  have hinj := List.inj_on_of_nodup_map hnd
  constructor
  · intro hc
    have hall : ∀ b ∈ docsOf ⟨scol, smem⟩, (b.id == doc_id && b.contact == contact) = false := by
      intro b hb
      rcases hq : (b.id == doc_id && b.contact == contact) with _ | _
      · rfl
      · simp only [Bool.and_eq_true, beq_iff_eq] at hq
        have hbd0 : b = d0 := hinj hb hd0 (hq.1.trans hid.symm)
        exact absurd (hbd0 ▸ hq.2) hc
    cases scol with
    | none =>
      simp only [docsOf] at hall
      simp only [delete_doc]
      rw [List.filter_eq_self.mpr (fun b hb => by rw [hall b hb]; rfl)]
      simp
    | some store =>
      simp only [docsOf] at hall
      simp only [delete_doc]
      rw [List.eraseP_of_forall_not (fun b hb hq => by
        rw [hall b hb] at hq; exact Bool.false_ne_true hq)]
      simp
  · intro hc
    have hpa : (d0.id == doc_id && d0.contact == contact) = true := by
      simp [hid, hc]
    have huniq : ∀ b ∈ docsOf ⟨scol, smem⟩,
        (b.id == doc_id && b.contact == contact) = true → b = d0 := by
      intro b hb hq
      simp only [Bool.and_eq_true, beq_iff_eq] at hq
      exact hinj hb hd0 (hq.1.trans hid.symm)
    have hlen : ((docsOf ⟨scol, smem⟩).erase d0).length < (docsOf ⟨scol, smem⟩).length := by
      rw [List.length_erase_of_mem hd0]
      have := List.length_pos.mpr (List.ne_nil_of_mem hd0)
      omega
    cases scol with
    | none =>
      simp only [docsOf] at hnd hd0 huniq hlen
      obtain ⟨h1, _⟩ := filter_not_and_eraseP_of_unique (hnd.of_map _) hd0 hpa huniq
      constructor
      · simp only [delete_doc, docsOf, h1]
      · simp only [delete_doc]
        rw [h1]
        simpa using hlen
    | some store =>
      simp only [docsOf] at hnd hd0 huniq hlen
      obtain ⟨_, h2⟩ := filter_not_and_eraseP_of_unique (hnd.of_map _) hd0 hpa huniq
      constructor
      · simp only [delete_doc, docsOf, h2]
      · simp only [delete_doc]
        rw [h2]
        simpa using hlen

/-- Concrete instance of the delete-authorization theorem: with records
`tripA`, `tripB` stored, deleting id `"1"` with the wrong contact fails and
changes nothing, and deleting id `"1"` with `tripA`'s own contact removes
exactly `tripA` and succeeds. -/
theorem C7_delete_authorization_witness :
    (delete_doc (AppState.mk (some [tripA, tripB]) []) "1" "nobody"
      = (AppState.mk (some [tripA, tripB]) [], false)) ∧
    (docsOf (delete_doc (AppState.mk (some [tripA, tripB]) []) "1" "+15551234567").1
        = [tripA, tripB].erase tripA ∧
      (delete_doc (AppState.mk (some [tripA, tripB]) []) "1" "+15551234567").2 = true) := by
  constructor
  · exact (C7_delete_authorization (AppState.mk (some [tripA, tripB]) []) "1" "nobody" tripA
      (by decide) (by decide) (by decide)).1 (by decide)
  · exact (C7_delete_authorization (AppState.mk (some [tripA, tripB]) []) "1" "+15551234567" tripA
      (by decide) (by decide) (by decide)).2 (by decide)

theorem docsOf_save_doc (s : AppState) (doc : TripDoc) :
    docsOf (save_doc s doc).1
      = docsOf s ++ [{ doc with id := toString ((docsOf s).length + 1) }] := by
  obtain ⟨scol, smem⟩ := s
  cases scol <;> simp [save_doc, docsOf]

theorem post_form_run (checkRaises : Bool) (s : AppState) (f : PostForm)
    (hname : f.name ≠ "") (hcontact : f.contact ≠ "") (horigin : f.origin ≠ "")
    (hdest : f.dest ≠ "") (htime : f.tf < f.tt) :
    post_form checkRaises s f =
      if doc_exists_for_contact_date_and_route checkRaises s (strTrim f.contact) f.dateIso
          (route_key_of f.origin f.dest) then (s, false)
      else ((save_doc s (mkDoc f (route_key_of f.origin f.dest))).1, true) := by
  unfold post_form
  have hc : (f.name == "" || f.contact == "" || f.origin == "" || f.dest == "") = false := by
    simp [hname, hcontact, horigin, hdest]
  simp only [hc, Bool.false_eq_true, if_false]
  rw [if_neg (not_le.mpr htime)]

/-- C5: with the duplicate check working, a first post of a valid form
succeeds and stores its document; an immediately repeated identical post is
rejected with no write, so exactly one record with that
`(contact, date, route_key)` triple is stored after both attempts; and when
the existence check raises, the guard fails open and the insert proceeds
even though a duplicate is already stored. -/
theorem C5_duplicate_guard (s : AppState) (f : PostForm)
    (hname : f.name ≠ "") (hcontact : f.contact ≠ "") (horigin : f.origin ≠ "")
    (hdest : f.dest ≠ "") (htime : f.tf < f.tt)
    (hnew : ∀ d ∈ docsOf s, ¬(d.contact = strTrim f.contact ∧ d.date = f.dateIso ∧
      d.route_key = route_key_of f.origin f.dest)) :
    (post_form false s f).2 = true ∧
    docsOf (post_form false s f).1 = docsOf s ++ [postedDoc s f] ∧
    post_form false (post_form false s f).1 f = ((post_form false s f).1, false) ∧
    (docsOf (post_form false s f).1).countP (fun d =>
      d.contact == strTrim f.contact && d.date == f.dateIso &&
        d.route_key == route_key_of f.origin f.dest) = 1 ∧
    (post_form true (post_form false s f).1 f).2 = true ∧
    docsOf (post_form true (post_form false s f).1 f).1
      = docsOf (post_form false s f).1 ++ [postedDoc (post_form false s f).1 f] := by
  have hdup1 : doc_exists_for_contact_date_and_route false s (strTrim f.contact) f.dateIso
      (route_key_of f.origin f.dest) = false := by
    simp only [doc_exists_for_contact_date_and_route, Bool.false_eq_true, if_false]
    rw [List.any_eq_false]
    intro d hd
    have := hnew d hd
    simp only [Bool.and_eq_true, beq_iff_eq]
    tauto
  have hrun1 := post_form_run false s f hname hcontact horigin hdest htime
  rw [hdup1] at hrun1
  simp only [Bool.false_eq_true, if_false] at hrun1
  have hdocs1 : docsOf (post_form false s f).1 = docsOf s ++ [postedDoc s f] := by
    rw [hrun1, docsOf_save_doc]
    rfl
  have hpostedTriple : (postedDoc s f).contact = strTrim f.contact ∧
      (postedDoc s f).date = f.dateIso ∧
      (postedDoc s f).route_key = route_key_of f.origin f.dest := by
    refine ⟨rfl, rfl, rfl⟩
  have hdup2 : doc_exists_for_contact_date_and_route false (post_form false s f).1
      (strTrim f.contact) f.dateIso (route_key_of f.origin f.dest) = true := by
    simp only [doc_exists_for_contact_date_and_route, Bool.false_eq_true, if_false]
    rw [List.any_eq_true]
    refine ⟨postedDoc s f, ?_, ?_⟩
    · rw [hdocs1]; exact List.mem_append_right _ (List.mem_singleton_self _)
    · simp [hpostedTriple.1, hpostedTriple.2.1, hpostedTriple.2.2]
  have hrun2 := post_form_run false (post_form false s f).1 f hname hcontact horigin hdest htime
  rw [hdup2] at hrun2
  simp only [if_true] at hrun2
  have hrun3 := post_form_run true (post_form false s f).1 f hname hcontact horigin hdest htime
  simp only [doc_exists_for_contact_date_and_route, if_true, Bool.false_eq_true, if_false]
    at hrun3
  refine ⟨by rw [hrun1], hdocs1, hrun2, ?_, by rw [hrun3], ?_⟩
  · rw [hdocs1, List.countP_append]
    have hz : (docsOf s).countP (fun d =>
        d.contact == strTrim f.contact && d.date == f.dateIso &&
          d.route_key == route_key_of f.origin f.dest) = 0 := by
      rw [List.countP_eq_zero]
      intro d hd
      have := hnew d hd
      simp only [Bool.and_eq_true, beq_iff_eq]
      tauto
    rw [hz]
    simp [List.countP_cons, hpostedTriple.1, hpostedTriple.2.1, hpostedTriple.2.2]
  · rw [hrun3, docsOf_save_doc]
    rfl

/-- Concrete instance of the duplicate-guard theorem on an empty store. -/
theorem C5_duplicate_guard_witness :
    (post_form false (AppState.mk (some []) []) sampleForm).2 = true ∧
    docsOf (post_form false (AppState.mk (some []) []) sampleForm).1
      = docsOf (AppState.mk (some []) []) ++ [postedDoc (AppState.mk (some []) []) sampleForm] ∧
    post_form false (post_form false (AppState.mk (some []) []) sampleForm).1 sampleForm
      = ((post_form false (AppState.mk (some []) []) sampleForm).1, false) ∧
    (docsOf (post_form false (AppState.mk (some []) []) sampleForm).1).countP (fun d =>
      d.contact == strTrim sampleForm.contact && d.date == sampleForm.dateIso &&
        d.route_key == route_key_of sampleForm.origin sampleForm.dest) = 1 ∧
    (post_form true (post_form false (AppState.mk (some []) []) sampleForm).1 sampleForm).2
      = true ∧
    docsOf (post_form true (post_form false (AppState.mk (some []) []) sampleForm).1
        sampleForm).1
      = docsOf (post_form false (AppState.mk (some []) []) sampleForm).1
        ++ [postedDoc (post_form false (AppState.mk (some []) []) sampleForm).1 sampleForm] :=
  C5_duplicate_guard (AppState.mk (some []) []) sampleForm (by decide) (by decide) (by decide)
    (by decide) (by decide) (by simp [docsOf])

/-- C9 counterexample: posting origin "New York", destination "Boston"
succeeds and stores `route_key = "newyork→boston"`, which is not the
lowercased concatenation of the origin string, `'→'`, and the destination
string (that would be `"new york→boston"`). -/
theorem C9_counterexample :
    (post_form false (AppState.mk (some []) []) formNY).2 = true ∧
    (docsOf (post_form false (AppState.mk (some []) []) formNY).1).map (fun d => d.route_key)
      = ["newyork→boston"] ∧
    pyLower (formNY.origin ++ "→" ++ formNY.dest) = "new york→boston" ∧
    ("newyork→boston" : String) ≠ "new york→boston" := by
  refine ⟨by decide, by decide, by decide, by decide⟩

/-- C9 (amended): every successful post appends exactly one document, whose
`route_key` is derived from its own stored origin and destination fields as
the lowercased concatenation of origin stripped and with all space
characters removed, `'→'`, and destination treated likewise (not the plain
lowercased `origin→destination` concatenation). -/
theorem C9_route_key_derived (checkRaises : Bool) (s : AppState) (f : PostForm)
    (hpost : (post_form checkRaises s f).2 = true) :
    docsOf (post_form checkRaises s f).1 = docsOf s ++ [postedDoc s f] ∧
    (postedDoc s f).route_key
      = route_key_of (postedDoc s f).origin (postedDoc s f).destination := by
  refine ⟨?_, rfl⟩
  by_cases h1 : (f.name == "" || f.contact == "" || f.origin == "" || f.dest == "") = true
  · unfold post_form at hpost
    rw [if_pos h1] at hpost
    simp at hpost
  · have hors : f.name ≠ "" ∧ f.contact ≠ "" ∧ f.origin ≠ "" ∧ f.dest ≠ "" := by
      have hb := Bool.eq_false_iff.mpr h1
      simp only [Bool.or_eq_false_iff, beq_eq_false_iff_ne] at hb
      tauto
    by_cases h2 : f.tt ≤ f.tf
    · unfold post_form at hpost
      rw [if_neg h1, if_pos h2] at hpost
      simp at hpost
    · have hrun := post_form_run checkRaises s f hors.1 hors.2.1 hors.2.2.1 hors.2.2.2
        (not_le.mp h2)
      rw [hrun] at hpost ⊢
      by_cases h3 : doc_exists_for_contact_date_and_route checkRaises s (strTrim f.contact)
          f.dateIso (route_key_of f.origin f.dest) = true
      · rw [if_pos h3] at hpost
        simp at hpost
      · rw [if_neg h3]
        rw [docsOf_save_doc]
        rfl

/-- Concrete instance of the amended route-key theorem: the "New York" →
"Boston" post stores `route_key` derived from its own fields. -/
theorem C9_route_key_derived_witness :
    docsOf (post_form false (AppState.mk (some []) []) formNY).1
      = docsOf (AppState.mk (some []) []) ++ [postedDoc (AppState.mk (some []) []) formNY] ∧
    (postedDoc (AppState.mk (some []) []) formNY).route_key
      = route_key_of (postedDoc (AppState.mk (some []) []) formNY).origin
          (postedDoc (AppState.mk (some []) []) formNY).destination :=
  C9_route_key_derived false (AppState.mk (some []) []) formNY (by decide)

/-- C10: `find_matches` returns the empty list whenever no durable store is
configured (`col is None`) or the store's `find` raises; the in-memory
fallback list is never consulted, so a trip saved in fallback mode is never
returned as a search match. -/
theorem C10_no_store_no_results :
    (∀ (findRaises : Bool) (origin destination trip_date : Option String)
       (t_from t_to : Option Nat) (n : Nat),
      find_matches none findRaises origin destination trip_date t_from t_to n = []) ∧
    (∀ (store : List TripDoc) (origin destination trip_date : Option String)
       (t_from t_to : Option Nat) (n : Nat),
      find_matches (some store) true origin destination trip_date t_from t_to n = []) ∧
    (∀ (mem : List TripDoc) (doc : TripDoc),
      (save_doc (AppState.mk none mem) doc).1.col = none ∧
      (∀ (findRaises : Bool) (origin destination trip_date : Option String)
         (t_from t_to : Option Nat) (n : Nat) (d : TripDoc),
        d ∉ find_matches (save_doc (AppState.mk none mem) doc).1.col findRaises
          origin destination trip_date t_from t_to n)) := by
  refine ⟨fun _ _ _ _ _ _ _ => rfl, fun _ _ _ _ _ _ _ => rfl, fun mem doc => ⟨rfl, ?_⟩⟩
  intro findRaises origin destination trip_date t_from t_to n d
  simp [save_doc, find_matches]

/-- C8: a notification email goes to an opted-in user `u` only if `u` is not
the poster, `u`'s stored origin and destination each show the fuzzy
substring/token overlap with the posted route (logical AND of the two
fields), and the matching-engine results for the posted route and date with
`u`'s own postings removed are non-empty — and the email payload is exactly
that purged result list. -/
theorem C8_notification_gate (store : List TripDoc) (o d dt c : String)
    (u : TripDoc) (fm : List TripDoc)
    (hmem : (u, fm) ∈ check_and_notify_matches store o d dt c) :
    u ∈ store ∧ u.notify_matches = true ∧ u.email.any (fun e => !(e == "")) = true ∧
    u.date = dt ∧ u.contact ≠ c ∧
    notifyFieldMatch (lowstrip o) (lowstrip u.origin) = true ∧
    notifyFieldMatch (lowstrip d) (lowstrip u.destination) = true ∧
    fm = (find_matches (some store) false (some o) (some d) (some dt)
        (some 0) (some 1439) 50).filter (fun m => !(m.contact == u.contact)) ∧
    fm ≠ [] := by
  simp only [check_and_notify_matches, List.mem_filterMap] at hmem
  obtain ⟨a, ha, hfa⟩ := hmem
  rw [List.mem_filter] at ha
  obtain ⟨hastore, hacond⟩ := ha
  simp only [Bool.and_eq_true, beq_iff_eq] at hacond
  by_cases hc : (a.contact == c) = true
  · rw [if_pos hc] at hfa
    cases hfa
  · rw [if_neg hc] at hfa
    by_cases hm : (notifyFieldMatch (lowstrip o) (lowstrip a.origin)
        && notifyFieldMatch (lowstrip d) (lowstrip a.destination)) = true
    · rw [if_pos hm] at hfa
      by_cases hemp : ((find_matches (some store) false (some o) (some d) (some dt)
          (some 0) (some 1439) 50).filter (fun m => !(m.contact == a.contact))).isEmpty = true
      · rw [if_pos hemp] at hfa
        cases hfa
      · rw [if_neg hemp] at hfa
        have hua : u = a ∧ fm = (find_matches (some store) false (some o) (some d) (some dt)
            (some 0) (some 1439) 50).filter (fun m => !(m.contact == a.contact)) := by
          have h := Option.some.inj hfa
          exact ⟨(Prod.mk.injEq _ _ _ _ ▸ h).1.symm, (Prod.mk.injEq _ _ _ _ ▸ h).2.symm⟩
        obtain ⟨hu, hfm⟩ := hua
        subst hu
        rw [Bool.and_eq_true] at hm
        refine ⟨hastore, hacond.1.1, hacond.1.2, hacond.2, by simpa using hc,
          hm.1, hm.2, hfm, ?_⟩
        rw [hfm]
        intro hnil
        rw [hnil] at hemp
        simp at hemp
    · rw [if_neg hm] at hfa
      cases hfa

/-- Concrete instance of the notification-gate theorem: with the poster's
trip and an opted-in user stored, the user is notified and every gate
condition holds at that input. -/
theorem C8_notification_gate_witness :
    notifyUser ∈ [posterTrip, notifyUser] ∧ notifyUser.notify_matches = true ∧
    notifyUser.email.any (fun e => !(e == "")) = true ∧
    notifyUser.date = "2025-01-10" ∧ notifyUser.contact ≠ "+15551112222" ∧
    notifyFieldMatch (lowstrip "Amherst") (lowstrip notifyUser.origin) = true ∧
    notifyFieldMatch (lowstrip "Boston") (lowstrip notifyUser.destination) = true ∧
    [posterTrip] = (find_matches (some [posterTrip, notifyUser]) false (some "Amherst")
        (some "Boston") (some "2025-01-10") (some 0) (some 1439) 50).filter
          (fun m => !(m.contact == notifyUser.contact)) ∧
    ([posterTrip] : List TripDoc) ≠ [] :=
  C8_notification_gate [posterTrip, notifyUser] "Amherst" "Boston" "2025-01-10" "+15551112222"
    notifyUser [posterTrip] (by rw [check_and_notify_matches, find_matches_eq_N]; decide)
